import Mathlib

/-!
Shallow embedding of the state-aggregation core of `oh-my-claude-board`
(a Rust TUI dashboard).  Strings are modelled as lists of Unicode code
points (`List Nat`); where the Rust code works on UTF-8 bytes (the byte
slice in `claude_output.rs`) the model switches to byte lists and says so.
Rust's `str::to_lowercase` is modelled on its ASCII fragment (`'A'..'Z'`
maps to `'a'..'z'`, everything else is fixed), which is exact for every
pattern and test input of the program and, like the Unicode original, is
idempotent.
-/

/-- Code points of a Lean string literal, used to write the program's
string constants. -/
def S (s : String) : List Nat := s.data.map Char.toNat

/-- ASCII fragment of Rust `char::to_lowercase`. -/
def toLowerCp (c : Nat) : Nat := if 65 ≤ c ∧ c ≤ 90 then c + 32 else c

/-- Model of Rust `str::to_lowercase` (ASCII fragment, code-point-wise). -/
def lowerStr (s : List Nat) : List Nat := s.map toLowerCp

/-- Does `pat` occur at the head of `hay`? -/
def isPrefixList : List Nat → List Nat → Bool
  | [], _ => true
  | _ :: _, [] => false
  | p :: ps, c :: cs => p = c && isPrefixList ps cs

/-- Model of Rust `str::contains` with a string pattern: contiguous
substring occurrence. -/
def containsSub (hay pat : List Nat) : Bool :=
  match hay with
  | [] => pat.isEmpty
  | _ :: t => isPrefixList pat hay || containsSub t pat

/- ===== src/analysis/rules.rs ===== -/

/-- `ErrorCategory` from rules.rs (`Typ` stands for the Rust variant
`Type`, which is a Lean keyword). -/
inductive ErrorCategory
  | Typ
  | Runtime
  | Network
  | Permission
  | Unknown
deriving DecidableEq, Repr

/-- `ErrorAnalysis` from rules.rs. -/
structure ErrorAnalysis where
  category : ErrorCategory
  retryable : Bool
  suggestion : List Nat
deriving DecidableEq, Repr

/-- `Rule` from rules.rs. -/
structure Rule where
  patterns : List (List Nat)
  category : ErrorCategory
  retryable : Bool
  suggestion : List Nat

/-- The `RULES` table of rules.rs, in source order. -/
def RULES : List Rule :=
  [ ⟨[S "permission denied"], .Permission, false, S "Check file permissions"⟩,
    ⟨[S "access denied"], .Permission, false, S "Check access rights"⟩,
    ⟨[S "connection refused"], .Network, true, S "Check if service is running"⟩,
    ⟨[S "timeout", S "timed out"], .Network, true, S "Retry or increase timeout"⟩,
    ⟨[S "rate limit"], .Network, true, S "Wait and retry"⟩,
    ⟨[S "dns", S "resolve"], .Network, true, S "Check network connection"⟩,
    ⟨[S "type error", S "type mismatch"], .Typ, false, S "Fix type annotations"⟩,
    ⟨[S "cannot find", S "not found"], .Typ, false, S "Check imports and paths"⟩,
    ⟨[S "undefined", S "unresolved"], .Typ, false, S "Check variable/module names"⟩,
    ⟨[S "out of memory", S "oom"], .Runtime, false, S "Reduce memory usage"⟩,
    ⟨[S "stack overflow"], .Runtime, false, S "Check for infinite recursion"⟩,
    ⟨[S "panic", S "unwrap"], .Runtime, false, S "Add proper error handling"⟩ ]

/-- The fallback analysis returned when no rule matches. -/
def unknownAnalysis : ErrorAnalysis :=
  ⟨.Unknown, false, S "Investigate error details"⟩

/-- The `for rule in RULES` loop of `analyze_error`: first rule any of
whose patterns is a substring of the lowered message wins. -/
def analyzeLoop (rules : List Rule) (lower : List Nat) : ErrorAnalysis :=
  match rules with
  | [] => unknownAnalysis
  | r :: rest =>
    if r.patterns.any (fun p => containsSub lower p) then
      ⟨r.category, r.retryable, r.suggestion⟩
    else analyzeLoop rest lower

/-- `analyze_error` from rules.rs. -/
def analyze_error (message : List Nat) : ErrorAnalysis :=
  analyzeLoop RULES (lowerStr message)

/-- Declarative reading of the classifier used to state C1: the result of
the first matching rule of a table, `unknownAnalysis` if none matches. -/
def firstRuleResult (rules : List Rule) (lower : List Nat) : ErrorAnalysis :=
  match rules.find? (fun r => r.patterns.any (fun p => containsSub lower p)) with
  | some r => ⟨r.category, r.retryable, r.suggestion⟩
  | none => unknownAnalysis

/- ===== src/data/hook_parser.rs ===== -/

/-- Unicode `White_Space` property, the character class removed by Rust
`str::trim`. -/
def isWsCp (c : Nat) : Bool :=
  (9 ≤ c && c ≤ 13) || c == 32 || c == 133 || c == 160 || c == 5760 ||
  (8192 ≤ c && c ≤ 8202) || c == 8232 || c == 8233 || c == 8239 ||
  c == 8287 || c == 12288

/-- Model of Rust `str::trim`: strip whitespace from both ends. -/
def trimStr (s : List Nat) : List Nat :=
  ((s.dropWhile isWsCp).reverse.dropWhile isWsCp).reverse

/-- Split at every newline (code point 10); a string with `n` newlines
yields `n + 1` segments. -/
def splitNl : List Nat → List (List Nat)
  | [] => [[]]
  | c :: rest =>
    match splitNl rest with
    | [] => [[]]
    | l :: ls => if c = 10 then [] :: l :: ls else (c :: l) :: ls

/-- Strip one trailing carriage return (code point 13). -/
def stripCr (l : List Nat) : List Nat :=
  if l.getLast? = some 13 then l.dropLast else l

/-- Model of Rust `str::lines`: split at `\n`, treat a `\r\n` ending as a
line ending (so every newline-terminated segment loses a trailing `\r`),
and do not produce a final empty line for a trailing newline.  A final
segment that was not newline-terminated keeps any trailing `\r`. -/
def rustLines (s : List Nat) : List (List Nat) :=
  let ps := splitNl s
  ps.dropLast.map stripCr ++
    (match ps.getLast? with
     | some [] => []
     | some l => [l]
     | none => [])

/-- `ParseError` from hook_parser.rs. -/
structure ParseError where
  line_number : Nat
  line_content : List Nat
  error : List Nat
deriving DecidableEq, Repr

/-- `ParseResult` from hook_parser.rs, generic in the event type: the
line decoder (`serde_json::from_str::<HookEvent>` in the source, an
external library) is a parameter of the model. -/
structure ParseResult (E : Type) where
  events : List E
  errors : List ParseError
deriving Repr

/-- The `for (idx, line) in input.lines().enumerate()` loop of
`parse_hook_events`: trim each line, skip it when empty, otherwise decode
it, recording an event on success and a `ParseError` carrying the 1-based
line number, the trimmed line and the decoder message on failure. -/
def parseLoop {E : Type} (dec : List Nat → Except (List Nat) E) :
    List (List Nat) → Nat → ParseResult E
  | [], _ => ⟨[], []⟩
  | line :: rest, idx =>
    let r := parseLoop dec rest (idx + 1)
    let trimmed := trimStr line
    if trimmed = [] then r
    else
      match dec trimmed with
      | .ok e => ⟨e :: r.events, r.errors⟩
      | .error msg => ⟨r.events, ⟨idx + 1, trimmed, msg⟩ :: r.errors⟩

/-- `parse_hook_events` from hook_parser.rs, generic in the per-line
decoder `dec`. -/
def parse_hook_events {E : Type} (dec : List Nat → Except (List Nat) E)
    (input : List Nat) : ParseResult E :=
  parseLoop dec (rustLines input) 0

/- ===== data model (data/state.rs, data/tasks_parser.rs) ===== -/

/-- Modelled from the spec: task status set of §3 (the defining Rust file
is not in the sources provided; gantt.rs consumes it). -/
inductive TaskStatus
  | Pending
  | InProgress
  | Completed
  | Failed
  | Blocked
deriving DecidableEq, Repr

/-- Modelled from the spec: a Task of §3 (identifier, display name,
status, optional assigned agent); named `DashTask` because `Task` is
taken by the Lean core library. -/
structure DashTask where
  id : List Nat
  name : List Nat
  status : TaskStatus
  agent : Option (List Nat)
deriving DecidableEq, Repr

/-- Modelled from the spec: a Phase of §3 (identifier, display name,
ordered tasks). -/
structure Phase where
  id : List Nat
  name : List Nat
  tasks : List DashTask
deriving DecidableEq, Repr

/-- Modelled from the spec: agent status set of §3. -/
inductive AgentStatus
  | Idle
  | Running
  | Error
deriving DecidableEq, Repr

/-- Modelled from the spec: an AgentState of §3. -/
structure AgentState where
  agent_id : List Nat
  status : AgentStatus
  current_task : Option (List Nat)
  current_tool : Option (List Nat)
  error_count : Nat
  event_count : Nat
deriving DecidableEq, Repr

/-- Modelled from the spec: an ErrorRecord of §3. -/
structure ErrorRecord where
  agent_id : List Nat
  message : List Nat
  category : ErrorCategory
  retryable : Bool
  suggestion : List Nat
deriving DecidableEq, Repr

/-- Modelled from the spec: the DashboardState snapshot of §3 (ordered
phases, agent map, bounded recent errors); only the parts the verified
operations read are used below. -/
structure DashboardState where
  phases : List Phase
  agents : List (List Nat × AgentState)
  recent_errors : List ErrorRecord
deriving DecidableEq, Repr

/- ===== src/ui/gantt.rs ===== -/

/-- `GanttState` from gantt.rs. -/
structure GanttState where
  selected : Nat
  total_items : Nat
  offset : Nat
deriving DecidableEq, Repr

/-- `GanttState::select_next`: `selected = min (selected+1) (total_items-1)`
when there are items. -/
def GanttState.select_next (gs : GanttState) : GanttState :=
  if gs.total_items > 0 then
    { gs with selected := min (gs.selected + 1) (gs.total_items - 1) }
  else gs

/-- `GanttState::select_prev`: saturating decrement (Nat subtraction is
Rust `saturating_sub`). -/
def GanttState.select_prev (gs : GanttState) : GanttState :=
  { gs with selected := gs.selected - 1 }

/-- The `for ti in 0..phase.tasks.len()` loop of `selected_task`: walk
`n` task rows starting at flat index `idx`, returning the task offset at
which `idx` meets `selected`, if any. -/
def scanTasks (selected : Nat) : Nat → Nat → Option Nat
  | 0, _ => none
  | n + 1, idx =>
    if idx = selected then some 0
    else (scanTasks selected n (idx + 1)).map (· + 1)

/-- The outer `for (pi, phase)` loop of `selected_task`: at each phase,
flat index `idx` first meets the header, then one row per task. -/
def selTaskGo (selected : Nat) : List Phase → Nat → Nat → Option (Nat × Nat)
  | [], _, _ => none
  | ph :: ps, pi, idx =>
    if idx = selected then none
    else
      match scanTasks selected ph.tasks.length (idx + 1) with
      | some ti => some (pi, ti)
      | none => selTaskGo selected ps (pi + 1) (idx + 1 + ph.tasks.length)

/-- `GanttState::selected_task` from gantt.rs. -/
def GanttState.selected_task (gs : GanttState) (st : DashboardState) :
    Option (Nat × Nat) :=
  selTaskGo gs.selected st.phases 0 0

/-- Spec-side view for C3: one entry per phase header or task row of the
flattened selection list. -/
inductive FlatEntry
  | header (pi : Nat)
  | task (pi ti : Nat)
deriving DecidableEq, Repr

/-- Spec-side view for C3: the flattened phase-header-then-its-tasks
sequence, with phase indices starting at `pi`. -/
def flatFrom : List Phase → Nat → List FlatEntry
  | [], _ => []
  | ph :: ps, pi =>
    FlatEntry.header pi ::
      ((List.range ph.tasks.length).map (fun ti => FlatEntry.task pi ti) ++
        flatFrom ps (pi + 1))

/-- Spec-side view for C3: the flattened selection sequence in document
order. -/
def flattenSel (phases : List Phase) : List FlatEntry :=
  flatFrom phases 0

/-- Spec-side view for C3: resolve a flat index; out of range and phase
headers yield no task. -/
def resolveFlat (phases : List Phase) (selected : Nat) : Option (Nat × Nat) :=
  match (flattenSel phases)[selected]? with
  | some (.task pi ti) => some (pi, ti)
  | _ => none

/- ===== src/ui/claude_output.rs ===== -/

/-- A UTF-8 char boundary starts wherever the byte is not a continuation
byte (Rust `u8::is_utf8_char_boundary`): below 128 or at least 192. -/
def isCharBoundaryByte (b : Nat) : Bool := b < 128 || 192 ≤ b

/-- Rust `str::is_char_boundary` on a byte string. -/
def rustIsCharBoundary (s : List Nat) (i : Nat) : Bool :=
  if i = 0 then true
  else if i = s.length then true
  else
    match s.get? i with
    | some b => isCharBoundaryByte b
    | none => false

/-- Rust byte slicing `&s[..i]`: `none` models the panic raised when `i`
is not a char boundary (or exceeds the length). -/
def rustSliceTo (s : List Nat) (i : Nat) : Option (List Nat) :=
  if rustIsCharBoundary s i && i ≤ s.length then some (s.take i) else none

/-- The `msg_short` truncation of `AgentPanel::build_lines`
(claude_output.rs lines 145-149) on the error message's UTF-8 bytes:
messages over 40 bytes are cut to their first 37 bytes plus `"..."`;
`none` models the panic of the byte slice. -/
def msg_short (message : List Nat) : Option (List Nat) :=
  if message.length > 40 then
    (rustSliceTo message 37).map (fun p => p ++ S "...")
  else
    some message

/-- A message on which the byte slice of `msg_short` panics: 36 ASCII
bytes followed by two three-byte UTF-8 characters (42 bytes, byte 37 is a
continuation byte). -/
def c9msg : List Nat :=
  List.replicate 36 97 ++ [230, 151, 165, 230, 151, 165]

/- ===== src/init.rs ===== -/

/-- A `serde_json::Value`.  Objects are key/value lists with distinct
keys; the settings patcher only ever reads and writes keys, so key order
is immaterial to the claims below. -/
inductive Json where
  | null
  | bool (b : Bool)
  | num (n : Int)
  | str (s : List Nat)
  | arr (elems : List Json)
  | obj (fields : List (List Nat × Json))

/-- Object field lookup (`serde_json::Map::get`). -/
def lookupField : List (List Nat × Json) → List Nat → Option Json
  | [], _ => none
  | (k', v) :: rest, k => if k' = k then some v else lookupField rest k

/-- Object field write (`serde_json::Map::insert`): replace the value of
an existing key, append a missing one. -/
def setField : List (List Nat × Json) → List Nat → Json → List (List Nat × Json)
  | [], k, v => [(k, v)]
  | (k', v') :: rest, k, v =>
    if k' = k then (k, v) :: rest else (k', v') :: setField rest k v

/-- `Value::get` on an object (`entry.get("...")`). -/
def Json.getKey : Json → List Nat → Option Json
  | .obj fs, k => lookupField fs k
  | _, _ => none

/-- `Value::as_array`. -/
def Json.asArr : Json → Option (List Json)
  | .arr xs => some xs
  | _ => none

/-- `Value::as_str`. -/
def Json.asStr : Json → Option (List Nat)
  | .str s => some s
  | _ => none

/-- `HOOK_MATCHER` from init.rs. -/
def HOOK_MATCHER : List Nat := S "Task|Edit|Write|Read|Bash|Grep|Glob"

/-- `HOOK_COMMAND` from init.rs. -/
def HOOK_COMMAND : List Nat := S "node \"${HOME}/.claude/hooks/event-logger.js\""

/-- `build_hook_entry` from init.rs. -/
def build_hook_entry : Json :=
  .obj [ (S "matcher", .str HOOK_MATCHER),
         (S "hooks", .arr [ .obj [ (S "type", .str (S "command")),
                                   (S "command", .str HOOK_COMMAND),
                                   (S "timeout", .num 3) ] ]) ]

/-- Inner closure of `has_event_logger_entry`: does one hook object hold
a `command` string mentioning `event-logger.js`? -/
def hookHasLogger (hook : Json) : Bool :=
  match (hook.getKey (S "command")).bind Json.asStr with
  | some cmd => containsSub cmd (S "event-logger.js")
  | none => false

/-- Outer closure of `has_event_logger_entry`: does one entry's `hooks`
array hold such a hook (`unwrap_or(false)` when `hooks` is absent or not
an array)? -/
def entryHasLogger (entry : Json) : Bool :=
  match (entry.getKey (S "hooks")).bind Json.asArr with
  | some hooks => hooks.any hookHasLogger
  | none => false

/-- `has_event_logger_entry` from init.rs. -/
def has_event_logger_entry (a : List Json) : Bool := a.any entryHasLogger

/-- The `for key in ["PreToolUse", "PostToolUse"]` body of
`patch_settings`: insert an empty array for a missing key, fail when the
key's value is not an array, append the hook entry unless one already
mentions `event-logger.js`; the returned flag says whether the object was
changed. -/
def patchKey (hooks : List (List Nat × Json)) (key : List Nat) (entry : Json) :
    Except (List Nat) (List (List Nat × Json) × Bool) :=
  let hooks1 := if (lookupField hooks key).isSome then hooks
                else setField hooks key (.arr [])
  match lookupField hooks1 key with
  | some (.arr a) =>
    if has_event_logger_entry a then .ok (hooks1, false)
    else .ok (setField hooks1 key (.arr (a ++ [entry])), true)
  | some _ => .error (S "hooks key is not an array")
  | none => .error (S "hooks key is not an array")

/-- The read step of `patch_settings`: the parsed settings file (`none`
when the file is missing, which the source replaces by an empty object)
must be a JSON object (`as_object_mut().context(...)?`). -/
def settingsRoot (current : Option Json) : Except (List Nat) (List (List Nat × Json)) :=
  match current.getD (.obj []) with
  | .obj root => .ok root
  | _ => .error (S "settings root is not an object")

/-- The `if !root.contains_key("hooks") insert` step of `patch_settings`. -/
def rootWithHooks (root : List (List Nat × Json)) : List (List Nat × Json) :=
  if (lookupField root (S "hooks")).isSome then root
  else setField root (S "hooks") (.obj [])

/-- The `root.get_mut("hooks").and_then(as_object_mut).context(...)?`
step of `patch_settings`. -/
def getHooksObj (root1 : List (List Nat × Json)) :
    Except (List Nat) (List (List Nat × Json)) :=
  match lookupField root1 (S "hooks") with
  | some (.obj hooks) => .ok hooks
  | _ => .error (S "settings hooks is not an object")

/-- The `for key in ["PreToolUse", "PostToolUse"]` loop of
`patch_settings`, unrolled over its two iterations; the flag is the
`patched` accumulator. -/
def patchHooksPair (hooks : List (List Nat × Json)) :
    Except (List Nat) (List (List Nat × Json) × Bool) :=
  match patchKey hooks (S "PreToolUse") build_hook_entry with
  | .error e => .error e
  | .ok (hooks1, p1) =>
    match patchKey hooks1 (S "PostToolUse") build_hook_entry with
    | .error e => .error e
    | .ok (hooks2, p2) => .ok (hooks2, p1 || p2)

/-- `patch_settings` from init.rs as a pure function: the input is the
parsed settings file; the output is the resulting settings value
together with the `patched` flag — the source rewrites the file if and
only if that flag is true, so a false flag leaves the file content
untouched. -/
def patch_settings (current : Option Json) : Except (List Nat) (Json × Bool) :=
  match settingsRoot current with
  | .error e => .error e
  | .ok root =>
    match getHooksObj (rootWithHooks root) with
    | .error e => .error e
    | .ok hooks =>
      match patchHooksPair hooks with
      | .error e => .error e
      | .ok (hooks2, p) =>
        .ok (.obj (setField (rootWithHooks root) (S "hooks") (.obj hooks2)), p)

/-- The settings value produced by `patch_settings` on a missing file. -/
def freshSettings : Json :=
  .obj [ (S "hooks",
          .obj [ (S "PreToolUse", .arr [build_hook_entry]),
                 (S "PostToolUse", .arr [build_hook_entry]) ]) ]

/- ===== concrete inputs used by witnesses and counterexamples ===== -/

/-- A decoder that rejects every line, standing in for
`serde_json::from_str` on non-JSON text. -/
def c6dec : List Nat → Except (List Nat) Unit := fun _ => .error (S "invalid")

/-- One malformed line with leading and trailing whitespace. -/
def c6input : List Nat := S " not valid json "

/-- A concrete dashboard snapshot with two phases holding two tasks and
one task. -/
def c3state : DashboardState :=
  ⟨[ ⟨S "P1", S "Phase one",
       [ ⟨S "T1", S "task one", .Pending, none⟩,
         ⟨S "T2", S "task two", .Completed, some (S "dev")⟩ ]⟩,
     ⟨S "P2", S "Phase two",
       [ ⟨S "T3", S "task three", .InProgress, none⟩ ]⟩ ],
   [], []⟩

/- ===== theorems: ErrorClassifier (rules.rs) ===== -/

theorem analyzeLoop_eq_firstRuleResult (rules : List Rule) (lower : List Nat) :
    analyzeLoop rules lower = firstRuleResult rules lower := by
  induction rules with
  | nil => rfl
  | cons r rest ih =>
    simp only [analyzeLoop, firstRuleResult, List.find?_cons] at ih ⊢
    cases h : (r.patterns.any (fun p => containsSub lower p)) with
    | true => simp [h]
    | false =>
      simp only [h, Bool.false_eq_true, if_false]
      exact ih

/-- C1: `analyze_error` returns the result of the first rule of the fixed
12-entry `RULES` table one of whose patterns occurs (case-insensitively)
in the message, and a message containing both "permission denied" and
"not found" is classified as Permission, not retryable, with suggestion
"Check file permissions" — never as Type. -/
theorem claim_C1_first_rule_priority (m : List Nat) :
    analyze_error m = firstRuleResult RULES (lowerStr m) ∧
    (containsSub (lowerStr m) (S "permission denied") = true →
      containsSub (lowerStr m) (S "not found") = true →
      analyze_error m = ⟨.Permission, false, S "Check file permissions"⟩ ∧
        (analyze_error m).category ≠ ErrorCategory.Typ) := by
  refine ⟨analyzeLoop_eq_firstRuleResult RULES (lowerStr m), fun h1 _ => ?_⟩
  have : analyze_error m = ⟨.Permission, false, S "Check file permissions"⟩ := by
    show analyzeLoop RULES (lowerStr m) = _
    rw [RULES]
    simp [analyzeLoop, h1]
  exact ⟨this, by rw [this]; decide⟩

theorem claim_C1_first_rule_priority_witness :
    containsSub (lowerStr (S "PERMISSION DENIED - file NOT FOUND"))
        (S "permission denied") = true ∧
    containsSub (lowerStr (S "PERMISSION DENIED - file NOT FOUND"))
        (S "not found") = true ∧
    analyze_error (S "PERMISSION DENIED - file NOT FOUND")
      = ⟨.Permission, false, S "Check file permissions"⟩ :=
  ⟨by decide, by decide,
    ((claim_C1_first_rule_priority (S "PERMISSION DENIED - file NOT FOUND")).2
      (by decide) (by decide)).1⟩

theorem toLowerCp_idem (c : Nat) : toLowerCp (toLowerCp c) = toLowerCp c := by
  by_cases h : 65 ≤ c ∧ c ≤ 90
  · have e1 : toLowerCp c = c + 32 := by unfold toLowerCp; rw [if_pos h]
    have h2 : ¬(65 ≤ c + 32 ∧ c + 32 ≤ 90) := by omega
    have e2 : toLowerCp (c + 32) = c + 32 := by unfold toLowerCp; rw [if_neg h2]
    rw [e1, e2]
  · have e1 : toLowerCp c = c := by unfold toLowerCp; rw [if_neg h]
    rw [e1]
    exact e1

theorem lowerStr_idem (s : List Nat) : lowerStr (lowerStr s) = lowerStr s := by
  induction s with
  | nil => rfl
  | cons c cs ih =>
    simp only [lowerStr, List.map_cons] at ih ⊢
    rw [toLowerCp_idem, ih]

/-- C7: the classifier is case-insensitive — analyzing a message and
analyzing its lowercased form give the same result; in particular
"PERMISSION DENIED" and "permission denied" classify identically. -/
theorem claim_C7_case_insensitive (m : List Nat) :
    analyze_error m = analyze_error (lowerStr m) ∧
    analyze_error (S "PERMISSION DENIED") = analyze_error (S "permission denied") := by
  constructor
  · show analyzeLoop RULES (lowerStr m) = analyzeLoop RULES (lowerStr (lowerStr m))
    rw [lowerStr_idem]
  · decide

theorem analyzeLoop_all_fail (rules : List Rule) (lower : List Nat)
    (h : rules.all (fun r => r.patterns.all (fun p => !containsSub lower p)) = true) :
    analyzeLoop rules lower = unknownAnalysis := by
  induction rules with
  | nil => rfl
  | cons r rest ih =>
    simp only [List.all_cons, Bool.and_eq_true] at h
    have hr : (r.patterns.any (fun p => containsSub lower p)) = false := by
      simp only [List.any_eq_false]
      intro p hp
      have := List.all_eq_true.mp h.1 p hp
      simpa using this
    simp [analyzeLoop, hr]
    exact ih h.2

/-- C8: a message in which no rule's pattern occurs (case-insensitively)
is classified Unknown, not retryable, with suggestion "Investigate error
details". -/
theorem claim_C8_unmatched_fallback (m : List Nat)
    (h : RULES.all
        (fun r => r.patterns.all (fun p => !containsSub (lowerStr m) p)) = true) :
    analyze_error m = ⟨.Unknown, false, S "Investigate error details"⟩ :=
  analyzeLoop_all_fail RULES (lowerStr m) h

theorem claim_C8_unmatched_fallback_witness :
    RULES.all
        (fun r => r.patterns.all
          (fun p => !containsSub (lowerStr (S "something completely unexpected happened")) p))
      = true ∧
    analyze_error (S "something completely unexpected happened")
      = ⟨.Unknown, false, S "Investigate error details"⟩ :=
  ⟨by decide,
    claim_C8_unmatched_fallback (S "something completely unexpected happened") (by decide)⟩

/- ===== theorems: HookEventDecoder (hook_parser.rs) ===== -/

theorem except_toOption_ok {ε α : Type} (a : α) :
    (Except.ok a : Except ε α).toOption = some a := rfl

theorem except_toOption_error {ε α : Type} (m : ε) :
    (Except.error m : Except ε α).toOption = (none : Option α) := rfl

theorem parseLoop_events_eq {E : Type} (dec : List Nat → Except (List Nat) E)
    (ls : List (List Nat)) (i : Nat) :
    (parseLoop dec ls i).events
      = ls.filterMap (fun l =>
          if trimStr l = [] then none else (dec (trimStr l)).toOption) := by
  induction ls generalizing i with
  | nil => rfl
  | cons l rest ih =>
    simp only [parseLoop, List.filterMap_cons]
    by_cases h : trimStr l = []
    · simp only [h, if_pos rfl, reduceIte]
      exact ih (i + 1)
    · simp only [if_neg h]
      cases hd : dec (trimStr l) with
      | ok e => simp only [hd, except_toOption_ok]; rw [ih (i + 1)]
      | error msg => simp only [hd, except_toOption_error]; exact ih (i + 1)

theorem parseLoop_errors_eq {E : Type} (dec : List Nat → Except (List Nat) E)
    (ls : List (List Nat)) (i : Nat) :
    (parseLoop dec ls i).errors
      = (List.enumFrom i ls).filterMap (fun il =>
          if trimStr il.2 = [] then none
          else
            match dec (trimStr il.2) with
            | .ok _ => none
            | .error msg => some ⟨il.1 + 1, trimStr il.2, msg⟩) := by
  induction ls generalizing i with
  | nil => rfl
  | cons l rest ih =>
    simp only [parseLoop, List.enumFrom_cons, List.filterMap_cons]
    by_cases h : trimStr l = []
    · simp only [h, reduceIte]
      exact ih (i + 1)
    · simp only [if_neg h]
      cases hd : dec (trimStr l) with
      | ok e => simp only [hd]; exact ih (i + 1)
      | error msg => simp only [hd]; rw [ih (i + 1)]

theorem parseLoop_length {E : Type} (dec : List Nat → Except (List Nat) E)
    (ls : List (List Nat)) (i : Nat) :
    (parseLoop dec ls i).events.length + (parseLoop dec ls i).errors.length
      = (ls.filter (fun l => !(trimStr l).isEmpty)).length := by
  induction ls generalizing i with
  | nil => rfl
  | cons l rest ih =>
    simp only [parseLoop, List.filter_cons]
    by_cases h : trimStr l = []
    · simp only [h, List.isEmpty_nil, Bool.not_true, reduceIte]
      exact ih (i + 1)
    · have hne : (!(trimStr l).isEmpty) = true := by
        simp [List.isEmpty_iff, h]
      simp only [if_neg h, hne, reduceIte, List.length_cons]
      cases hd : dec (trimStr l) with
      | ok e =>
        simp only [hd, List.length_cons]
        rw [← ih (i + 1)]
        omega
      | error msg =>
        simp only [hd, List.length_cons]
        rw [← ih (i + 1)]
        omega

/-- C2: for every per-line decoder and every input, the number of decoded
events plus the number of collected parse errors equals the number of
non-blank (non-whitespace-only) lines of the input; blank lines
contribute neither. -/
theorem claim_C2_event_error_count {E : Type}
    (dec : List Nat → Except (List Nat) E) (input : List Nat) :
    (parse_hook_events dec input).events.length
        + (parse_hook_events dec input).errors.length
      = ((rustLines input).filter (fun l => !(trimStr l).isEmpty)).length :=
  parseLoop_length dec (rustLines input) 0

/-- C5: decoding is per-line and order-preserving — the decoded events
are exactly the successful decodes of the trimmed non-blank lines, in
source-line order, so one line's failure never removes or reorders the
events of other lines. -/
theorem claim_C5_order_preserving {E : Type}
    (dec : List Nat → Except (List Nat) E) (input : List Nat) :
    (parse_hook_events dec input).events
      = (rustLines input).filterMap (fun l =>
          if trimStr l = [] then none else (dec (trimStr l)).toOption) :=
  parseLoop_events_eq dec (rustLines input) 0

/-- C6 counterexample: on a single malformed line with surrounding
whitespace, the recorded `line_content` is the trimmed text, not the
original line text, so the claim "each ParseError carries the original
line text" fails. -/
theorem claim_C6_counterexample :
    rustLines c6input = [S " not valid json "] ∧
    (parse_hook_events c6dec c6input).errors
      = [⟨1, S "not valid json", S "invalid"⟩] ∧
    (⟨1, S "not valid json", S "invalid"⟩ : ParseError).line_content
      ≠ S " not valid json " := by
  refine ⟨by decide, by decide, by decide⟩

/-- C6 (amended): each `ParseError` carries the 1-based line number of
its line in the input and the whitespace-trimmed text of that line
(together with the decoder's message on that trimmed text). -/
theorem claim_C6_error_metadata {E : Type}
    (dec : List Nat → Except (List Nat) E) (input : List Nat)
    (pe : ParseError) (h : pe ∈ (parse_hook_events dec input).errors) :
    1 ≤ pe.line_number ∧
    ∃ l, (rustLines input)[pe.line_number - 1]? = some l ∧
      pe.line_content = trimStr l ∧
      dec (trimStr l) = .error pe.error := by
  rw [parse_hook_events, parseLoop_errors_eq dec (rustLines input) 0,
    List.mem_filterMap] at h
  obtain ⟨⟨i, l⟩, hmem, hf⟩ := h
  rw [List.mk_mem_enumFrom_iff_le_and_getElem?_sub] at hmem
  by_cases hb : trimStr l = []
  · simp [hb] at hf
  · simp only [if_neg hb] at hf
    cases hd : dec (trimStr l) with
    | ok e => rw [hd] at hf; exact absurd hf (by simp)
    | error msg =>
      rw [hd] at hf
      simp only [Option.some.injEq] at hf
      subst hf
      refine ⟨by show 1 ≤ i + 1; omega, l, ?_, rfl, hd⟩
      simpa using hmem.2

theorem claim_C6_error_metadata_witness :
    (⟨1, S "not valid json", S "invalid"⟩ : ParseError)
        ∈ (parse_hook_events c6dec c6input).errors ∧
    (1 ≤ (⟨1, S "not valid json", S "invalid"⟩ : ParseError).line_number ∧
      ∃ l, (rustLines c6input)[(⟨1, S "not valid json", S "invalid"⟩ : ParseError).line_number - 1]?
          = some l ∧
        (⟨1, S "not valid json", S "invalid"⟩ : ParseError).line_content = trimStr l ∧
        c6dec (trimStr l)
          = .error (⟨1, S "not valid json", S "invalid"⟩ : ParseError).error) :=
  ⟨by decide,
    claim_C6_error_metadata c6dec c6input ⟨1, S "not valid json", S "invalid"⟩ (by decide)⟩

/- ===== theorems: selection model (gantt.rs) ===== -/

theorem scanTasks_eq (sel : Nat) : ∀ (n idx : Nat), idx ≤ sel →
    scanTasks sel n idx = if sel < idx + n then some (sel - idx) else none := by
  intro n
  induction n with
  | zero =>
    intro idx h
    rw [if_neg (by omega)]
    rfl
  | succ n ih =>
    intro idx h
    by_cases he : idx = sel
    · subst he
      rw [if_pos (by omega)]
      simp [scanTasks]
    · have h1 : idx + 1 ≤ sel := by omega
      simp only [scanTasks]
      rw [if_neg he, ih (idx + 1) h1]
      by_cases hlt : sel < idx + 1 + n
      · rw [if_pos hlt, if_pos (by omega)]
        show some (sel - (idx + 1) + 1) = some (sel - idx)
        exact congrArg some (by omega)
      · rw [if_neg hlt, if_neg (by omega)]
        rfl

theorem selTaskGo_eq (sel : Nat) : ∀ (ps : List Phase) (pi idx : Nat), idx ≤ sel →
    selTaskGo sel ps pi idx
      = (match (flatFrom ps pi)[sel - idx]? with
         | some (.task pj tj) => some (pj, tj)
         | _ => none) := by
  intro ps
  induction ps with
  | nil =>
    intro pi idx h
    simp [selTaskGo, flatFrom]
  | cons ph rest ih =>
    intro pi idx h
    simp only [selTaskGo, flatFrom]
    by_cases he : idx = sel
    · subst he
      rw [if_pos rfl]
      simp
    · have h1 : idx + 1 ≤ sel := by omega
      rw [if_neg he, scanTasks_eq sel ph.tasks.length (idx + 1) h1]
      have hidx : sel - idx = (sel - (idx + 1)) + 1 := by omega
      rw [hidx]
      rw [List.getElem?_cons_succ]
      by_cases hlt : sel < idx + 1 + ph.tasks.length
      · rw [if_pos hlt]
        have hin : sel - (idx + 1) < ((List.range ph.tasks.length).map
            (fun ti => FlatEntry.task pi ti)).length := by
          simp [List.length_map, List.length_range]
          omega
        rw [List.getElem?_append_left hin]
        rw [List.getElem?_map, List.getElem?_range (by omega)]
        rfl
      · rw [if_neg hlt]
        have hout : ((List.range ph.tasks.length).map
            (fun ti => FlatEntry.task pi ti)).length ≤ sel - (idx + 1) := by
          simp [List.length_map, List.length_range]
          omega
        rw [List.getElem?_append_right hout]
        have harith : sel - (idx + 1) - ((List.range ph.tasks.length).map
            (fun ti => FlatEntry.task pi ti)).length
              = sel - (idx + 1 + ph.tasks.length) := by
          simp [List.length_map, List.length_range]
          omega
        rw [harith]
        exact ih (pi + 1) (idx + 1 + ph.tasks.length) (by omega)

/-- C3: resolving the current selection index against the flattened
phase-header-then-tasks sequence never fails — an index that is out of
range or lands on a phase header resolves to no task, and an index that
lands on a task row resolves to that task's `(phase_index, task_index)`
in document order. -/
theorem claim_C3_selection_resolution (gs : GanttState) (st : DashboardState) :
    gs.selected_task st = resolveFlat st.phases gs.selected ∧
    ((flattenSel st.phases)[gs.selected]? = none → gs.selected_task st = none) ∧
    (∀ pi, (flattenSel st.phases)[gs.selected]? = some (.header pi) →
      gs.selected_task st = none) ∧
    (∀ pi ti, (flattenSel st.phases)[gs.selected]? = some (.task pi ti) →
      gs.selected_task st = some (pi, ti)) := by
  have base : gs.selected_task st
      = (match (flattenSel st.phases)[gs.selected]? with
         | some (.task pj tj) => some (pj, tj)
         | _ => none) := by
    have := selTaskGo_eq gs.selected st.phases 0 0 (Nat.zero_le _)
    simpa [GanttState.selected_task, flattenSel] using this
  refine ⟨?_, ?_, ?_, ?_⟩
  · rw [base, resolveFlat]
  · intro h; rw [base, h]
  · intro pi h; rw [base, h]
  · intro pi ti h; rw [base, h]

theorem claim_C3_selection_resolution_witness :
    ((flattenSel c3state.phases)[(4 : Nat)]? = some (.task 1 0) ∧
      GanttState.selected_task ⟨4, 5, 0⟩ c3state = some (1, 0)) ∧
    ((flattenSel c3state.phases)[(3 : Nat)]? = some (.header 1) ∧
      GanttState.selected_task ⟨3, 5, 0⟩ c3state = none) ∧
    ((flattenSel c3state.phases)[(9 : Nat)]? = none ∧
      GanttState.selected_task ⟨9, 5, 0⟩ c3state = none) :=
  ⟨⟨by decide,
      (claim_C3_selection_resolution ⟨4, 5, 0⟩ c3state).2.2.2 1 0 (by decide)⟩,
   ⟨by decide,
      (claim_C3_selection_resolution ⟨3, 5, 0⟩ c3state).2.2.1 1 (by decide)⟩,
   ⟨by decide,
      (claim_C3_selection_resolution ⟨9, 5, 0⟩ c3state).2.1 (by decide)⟩⟩

/-- C4: with the selection inside `[0, total_items-1]`, moving the cursor
either way keeps it inside `[0, total_items-1]`; moving down from the
last index and moving up from index 0 are no-ops. -/
theorem claim_C4_cursor_clamped (gs : GanttState)
    (h : gs.selected < gs.total_items) :
    (gs.select_next).selected < gs.total_items ∧
    (gs.select_prev).selected < gs.total_items ∧
    (gs.selected = gs.total_items - 1 → gs.select_next = gs) ∧
    (gs.selected = 0 → gs.select_prev = gs) := by
  obtain ⟨s, t, o⟩ := gs
  have h' : s < t := h
  simp only [GanttState.select_next, GanttState.select_prev]
  have ht : 0 < t := by omega
  rw [if_pos ht]
  refine ⟨?_, ?_, fun hs => ?_, fun hs => ?_⟩
  · show min (s + 1) (t - 1) < t
    omega
  · show s - 1 < t
    omega
  · have hs' : s = t - 1 := hs
    have hmin : min (s + 1) (t - 1) = s := by omega
    rw [hmin]
  · have hs' : s = 0 := hs
    have hsub : s - 1 = s := by omega
    rw [hsub]

theorem claim_C4_cursor_clamped_witness :
    ((⟨4, 5, 0⟩ : GanttState).selected < (⟨4, 5, 0⟩ : GanttState).total_items) ∧
    ((⟨4, 5, 0⟩ : GanttState).select_next.selected < 5 ∧
      (⟨4, 5, 0⟩ : GanttState).select_next = ⟨4, 5, 0⟩) ∧
    (⟨0, 5, 0⟩ : GanttState).select_prev = ⟨0, 5, 0⟩ :=
  ⟨by decide,
   ⟨(claim_C4_cursor_clamped ⟨4, 5, 0⟩ (by decide)).1,
    (claim_C4_cursor_clamped ⟨4, 5, 0⟩ (by decide)).2.2.1 (by decide)⟩,
   (claim_C4_cursor_clamped ⟨0, 5, 0⟩ (by decide)).2.2.2 (by decide)⟩

/- ===== theorems: error-message truncation (claude_output.rs) ===== -/

/-- C9 fails on the code: the truncation byte-slices at index 37, and on
a 42-byte message whose byte 37 is inside a multi-byte UTF-8 character
the slice `&err.message[..37]` is not on a char boundary, so
`build_lines` panics instead of totally truncating. -/
theorem claim_C9_truncation_panics :
    c9msg.length > 40 ∧
    rustIsCharBoundary c9msg 37 = false ∧
    msg_short c9msg = none := by
  refine ⟨by decide, by decide, by decide⟩

/- ===== theorems: settings patching (init.rs) ===== -/

theorem lookup_set_self (fs : List (List Nat × Json)) (k : List Nat) (v : Json) :
    lookupField (setField fs k v) k = some v := by
  induction fs with
  | nil => simp [setField, lookupField]
  | cons kv rest ih =>
    obtain ⟨k', v'⟩ := kv
    by_cases he : k' = k
    · simp [setField, lookupField, he]
    · simp [setField, lookupField, he, ih]

theorem lookup_set_ne (fs : List (List Nat × Json)) (k k' : List Nat) (v : Json)
    (h : k' ≠ k) :
    lookupField (setField fs k v) k' = lookupField fs k' := by
  have hne : k ≠ k' := fun hh => h hh.symm
  induction fs with
  | nil =>
    simp only [setField, lookupField]
    rw [if_neg hne]
  | cons kv rest ih =>
    obtain ⟨k0, v0⟩ := kv
    by_cases he : k0 = k
    · subst he
      simp only [setField, lookupField, if_pos rfl]
      rw [if_neg hne, if_neg hne]
    · simp only [setField, lookupField]
      rw [if_neg he]
      simp only [lookupField]
      by_cases h0 : k0 = k'
      · rw [if_pos h0, if_pos h0]
      · rw [if_neg h0, if_neg h0]
        exact ih

theorem set_set_self (fs : List (List Nat × Json)) (k : List Nat) (v v' : Json) :
    setField (setField fs k v) k v' = setField fs k v' := by
  induction fs with
  | nil => simp [setField]
  | cons kv rest ih =>
    obtain ⟨k0, v0⟩ := kv
    by_cases he : k0 = k
    · simp [setField, he]
    · simp [setField, he, ih]

theorem entryHasLogger_build : entryHasLogger build_hook_entry = true := by decide

theorem hasLogger_append (a : List Json) :
    has_event_logger_entry (a ++ [build_hook_entry]) = true := by
  simp [has_event_logger_entry, List.any_append, entryHasLogger_build,
    List.any_cons, List.any_nil]

theorem patchKey_stable (hooks : List (List Nat × Json)) (key : List Nat)
    (e : Json) (a : List Json) (hl : lookupField hooks key = some (.arr a))
    (hh : has_event_logger_entry a = true) :
    patchKey hooks key e = .ok (hooks, false) := by
  simp [patchKey, hl, hh]

theorem patchKey_ensures (hooks : List (List Nat × Json)) (key : List Nat)
    (hooks' : List (List Nat × Json)) (p : Bool)
    (h : patchKey hooks key build_hook_entry = .ok (hooks', p)) :
    (∃ a, lookupField hooks' key = some (.arr a) ∧
        has_event_logger_entry a = true) ∧
    (∀ k, k ≠ key → lookupField hooks' k = lookupField hooks k) := by
  cases hl : lookupField hooks key with
  | none =>
    have hset : lookupField (setField hooks key (Json.arr [])) key
        = some (.arr []) := lookup_set_self hooks key (Json.arr [])
    simp only [patchKey, hl, Option.isSome_none, Bool.false_eq_true, if_false,
      hset, has_event_logger_entry, List.any_nil, Bool.false_eq_true] at h
    injection h with h1
    injection h1 with h2 h3
    subst h2
    constructor
    · refine ⟨[] ++ [build_hook_entry], ?_, hasLogger_append []⟩
      exact lookup_set_self _ key _
    · intro k hk
      rw [lookup_set_ne _ _ _ _ hk, lookup_set_ne _ _ _ _ hk]
  | some v =>
    cases v with
    | arr a =>
      by_cases hh : has_event_logger_entry a = true
      · have := patchKey_stable hooks key build_hook_entry a hl hh
        rw [this] at h
        injection h with h1
        injection h1 with h2 h3
        subst h2
        exact ⟨⟨a, hl, hh⟩, fun k _ => rfl⟩
      · simp only [patchKey, hl, Option.isSome_some, if_true, hh,
          Bool.false_eq_true, if_false] at h
        injection h with h1
        injection h1 with h2 h3
        subst h2
        constructor
        · exact ⟨a ++ [build_hook_entry], lookup_set_self _ key _,
            hasLogger_append a⟩
        · intro k hk
          exact lookup_set_ne _ _ _ _ hk
    | null => simp [patchKey, hl] at h
    | bool b => simp [patchKey, hl] at h
    | num n => simp [patchKey, hl] at h
    | str s => simp [patchKey, hl] at h
    | obj fs => simp [patchKey, hl] at h


theorem settingsRoot_ok (current : Option Json) (root : List (List Nat × Json))
    (h : settingsRoot current = .ok root) :
    current.getD (.obj []) = .obj root := by
  unfold settingsRoot at h
  cases hcc : current.getD (.obj []) with
  | obj r =>
    rw [hcc] at h
    injection h with h1
    rw [h1]
  | null => rw [hcc] at h; exact Except.noConfusion h
  | bool b => rw [hcc] at h; exact Except.noConfusion h
  | num n => rw [hcc] at h; exact Except.noConfusion h
  | str s0 => rw [hcc] at h; exact Except.noConfusion h
  | arr xs => rw [hcc] at h; exact Except.noConfusion h

theorem getHooksObj_ok (root1 hooks : List (List Nat × Json))
    (h : getHooksObj root1 = .ok hooks) :
    lookupField root1 (S "hooks") = some (.obj hooks) := by
  unfold getHooksObj at h
  cases hl : lookupField root1 (S "hooks") with
  | none => rw [hl] at h; exact Except.noConfusion h
  | some v =>
    rw [hl] at h
    cases v with
    | obj hooks0 =>
      injection h with h1
      rw [h1]
    | null => exact Except.noConfusion h
    | bool b => exact Except.noConfusion h
    | num n => exact Except.noConfusion h
    | str s0 => exact Except.noConfusion h
    | arr xs => exact Except.noConfusion h

theorem patchHooksPair_ensures (hooks hooks2 : List (List Nat × Json)) (p : Bool)
    (h : patchHooksPair hooks = .ok (hooks2, p)) :
    (∃ a, lookupField hooks2 (S "PreToolUse") = some (.arr a) ∧
        has_event_logger_entry a = true) ∧
    (∃ a, lookupField hooks2 (S "PostToolUse") = some (.arr a) ∧
        has_event_logger_entry a = true) := by
  unfold patchHooksPair at h
  cases hpk1 : patchKey hooks (S "PreToolUse") build_hook_entry with
  | error e => rw [hpk1] at h; exact Except.noConfusion h
  | ok pr1 =>
    obtain ⟨hooks1, p1⟩ := pr1
    simp only [hpk1] at h
    cases hpk2 : patchKey hooks1 (S "PostToolUse") build_hook_entry with
    | error e => rw [hpk2] at h; exact Except.noConfusion h
    | ok pr2 =>
      obtain ⟨hooks2', p2'⟩ := pr2
      simp only [hpk2] at h
      injection h with h1
      injection h1 with hh2 hp
      subst hh2
      obtain ⟨⟨a, ha, hha⟩, _⟩ :=
        patchKey_ensures hooks (S "PreToolUse") hooks1 p1 hpk1
      obtain ⟨hpost, hpres⟩ :=
        patchKey_ensures hooks1 (S "PostToolUse") hooks2' p2' hpk2
      exact ⟨⟨a, by rw [hpres _ (by decide), ha], hha⟩, hpost⟩

theorem patchHooksPair_stable (hooks : List (List Nat × Json))
    (hpre : ∃ a, lookupField hooks (S "PreToolUse") = some (.arr a) ∧
        has_event_logger_entry a = true)
    (hpost : ∃ a, lookupField hooks (S "PostToolUse") = some (.arr a) ∧
        has_event_logger_entry a = true) :
    patchHooksPair hooks = .ok (hooks, false) := by
  obtain ⟨a1, ha1, hh1⟩ := hpre
  obtain ⟨a2, ha2, hh2⟩ := hpost
  unfold patchHooksPair
  simp only [patchKey_stable hooks (S "PreToolUse") build_hook_entry a1 ha1 hh1,
    patchKey_stable hooks (S "PostToolUse") build_hook_entry a2 ha2 hh2,
    Bool.or_self]

theorem patch_settings_ok_shape (current : Option Json) (s : Json) (p : Bool)
    (h : patch_settings current = .ok (s, p)) :
    ∃ root hooks2,
      current.getD (.obj []) = .obj root ∧
      s = .obj (setField (rootWithHooks root) (S "hooks") (.obj hooks2)) ∧
      (∃ a, lookupField hooks2 (S "PreToolUse") = some (.arr a) ∧
          has_event_logger_entry a = true) ∧
      (∃ a, lookupField hooks2 (S "PostToolUse") = some (.arr a) ∧
          has_event_logger_entry a = true) := by
  unfold patch_settings at h
  cases hr : settingsRoot current with
  | error e => rw [hr] at h; exact Except.noConfusion h
  | ok root =>
    simp only [hr] at h
    cases hg : getHooksObj (rootWithHooks root) with
    | error e => rw [hg] at h; exact Except.noConfusion h
    | ok hooks =>
      simp only [hg] at h
      cases hpp : patchHooksPair hooks with
      | error e => rw [hpp] at h; exact Except.noConfusion h
      | ok pr =>
        obtain ⟨hooks2, p2⟩ := pr
        simp only [hpp] at h
        injection h with h1
        injection h1 with hs2 hp2
        obtain ⟨hpre, hpost⟩ := patchHooksPair_ensures hooks hooks2 p2 hpp
        exact ⟨root, hooks2, settingsRoot_ok current root hr, hs2.symm, hpre, hpost⟩

theorem patch_settings_stable (root hooks : List (List Nat × Json))
    (hlk : lookupField root (S "hooks") = some (.obj hooks))
    (hpre : ∃ a, lookupField hooks (S "PreToolUse") = some (.arr a) ∧
        has_event_logger_entry a = true)
    (hpost : ∃ a, lookupField hooks (S "PostToolUse") = some (.arr a) ∧
        has_event_logger_entry a = true)
    (hset : setField root (S "hooks") (.obj hooks) = root) :
    patch_settings (some (.obj root)) = .ok (.obj root, false) := by
  have hr : settingsRoot (some (.obj root)) = .ok root := rfl
  have hrw : rootWithHooks root = root := by
    unfold rootWithHooks
    rw [hlk]
    rfl
  have hg : getHooksObj root = .ok hooks := by
    unfold getHooksObj
    rw [hlk]
  have hpair := patchHooksPair_stable hooks hpre hpost
  unfold patch_settings
  simp only [hr, hg, hpair, hrw, hset]

/-- C10: `patch_settings` is idempotent — when a run succeeds with result
`s`, running it again on `s` succeeds with the same value and reports
nothing patched (so the settings file is not rewritten and no duplicate
entry is created, both hook arrays already holding an `event-logger.js`
entry), and the first run preserves every key other than `hooks`. -/
theorem claim_C10_patch_idempotent (current : Option Json) (s : Json) (p : Bool)
    (h : patch_settings current = .ok (s, p)) :
    patch_settings (some s) = .ok (s, false) ∧
    (∀ k, k ≠ S "hooks" → s.getKey k = (current.getD (.obj [])).getKey k) := by
  obtain ⟨root, hooks2, hcur, hs, hpre, hpost⟩ :=
    patch_settings_ok_shape current s p h
  constructor
  · rw [hs]
    exact patch_settings_stable _ hooks2
      (lookup_set_self _ (S "hooks") (.obj hooks2)) hpre hpost
      (set_set_self _ (S "hooks") (.obj hooks2) (.obj hooks2))
  · intro k hk
    rw [hs, hcur]
    show lookupField (setField (rootWithHooks root) (S "hooks") (.obj hooks2)) k
        = lookupField root k
    rw [lookup_set_ne _ _ _ _ hk]
    unfold rootWithHooks
    by_cases hc : (lookupField root (S "hooks")).isSome = true
    · rw [if_pos hc]
    · rw [if_neg hc, lookup_set_ne _ _ _ _ hk]

theorem claim_C10_patch_idempotent_witness :
    patch_settings none = .ok (freshSettings, true) ∧
    patch_settings (some freshSettings) = .ok (freshSettings, false) :=
  ⟨rfl, (claim_C10_patch_idempotent none freshSettings true rfl).1⟩
